import Mathlib

/-!
Verification of the Scan/QC Reconciliation & Metrics Ledger Engine
(weekly-mriqc-report repository).

The definitions below are a shallow embedding of the Python sources:
  * `src/bids_qc_report.py`        — scan presence scanner, QC status evaluator
  * `src/runmriqc_group_local.py`  — metrics extraction, outlier flags, ledger upsert
  * `src/mriqc_pipeline/mriqc_local.py` — selection of subjects missing QC

Strings are modelled with Lean `String` (in this toolchain a structure
holding a `List Char`), so every definition is executable and every
concrete instance is decidable.  The Python regexes used by the sources
are simple anchored shapes (`sub-` followed by digit blocks, fixed
suffixes, substring markers); each one is translated into an explicit
character-level function next to a comment quoting the original pattern.
-/

/-! ## Character/string helpers shared by several components -/

/-- Data of an appended string is the appended data (definitional in this
toolchain, where `String` is a structure over `List Char`). -/
theorem strDataAppend (s t : String) : (s ++ t).data = s.data ++ t.data := rfl

/-- `needle` occurs as a contiguous substring of `hay` (models Python
`needle in hay` and the un-anchored part of `re.search`). -/
def containsSub (hay needle : String) : Bool :=
  (List.range (hay.data.length + 1)).any (fun i => needle.data.isPrefixOf (hay.data.drop i))

/-- Models Python `s.endswith(post)` / a `$`-anchored literal regex tail. -/
def strEndsWith (s post : String) : Bool :=
  post.data.isSuffixOf s.data

/-- Models Python `s[:-n]` style truncation (`str.removesuffix` territory);
used to express `A.*B$` regex searches as: ends with `B`, and `A` occurs
in what remains after the length-of-`B` tail is removed. -/
def strDropRight (s : String) (n : Nat) : String :=
  String.mk (s.data.take (s.data.length - n))

/-! ## Subject Identity Classifier

`src/runmriqc_group_local.py` classifies bare labels with
`re.fullmatch(r"\d{4}", lab)` / `re.fullmatch(r"\d{4}1", lab)` and raises
`ValueError` on anything else; `src/bids_qc_report.py` classifies directory
names with `re.match(r"sub-\d{4}$", s)` / `re.match(r"sub-\d{4}1$", s)`. -/

/-- `re.fullmatch(r"\d{4}", lab)`: exactly four digit characters. -/
def isBaselineLabel (lab : String) : Bool :=
  match lab.data with
  | [a, b, c, d] => a.isDigit && b.isDigit && c.isDigit && d.isDigit
  | _ => false

/-- `re.fullmatch(r"\d{4}1", lab)`: four digits then the literal digit 1. -/
def isScan2Label (lab : String) : Bool :=
  match lab.data with
  | [a, b, c, d, e] => a.isDigit && b.isDigit && c.isDigit && d.isDigit && (e = '1')
  | _ => false

/-- `regex_baseline = re.compile(r"sub-\d{4}$")` applied with `.match`:
the whole name is `sub-` followed by exactly four digits. -/
def isBaselineDir (s : String) : Bool :=
  match s.data with
  | ['s', 'u', 'b', '-', a, b, c, d] => a.isDigit && b.isDigit && c.isDigit && d.isDigit
  | _ => false

/-- `regex_scan2 = re.compile(r"sub-\d{4}1$")` applied with `.match`:
`sub-`, four digits, then the literal digit 1. -/
def isScan2Dir (s : String) : Bool :=
  match s.data with
  | ['s', 'u', 'b', '-', a, b, c, d, e] =>
      a.isDigit && b.isDigit && c.isDigit && d.isDigit && (e = '1')
  | _ => false

inductive Cohort where
  | BASELINE
  | SCAN2
  | REJECTED
deriving DecidableEq

/-- The directory-name classification performed in `bids_qc_report.main`
(lines 262-263): a name is put in the baseline group when `regex_baseline`
matches, in the scan2 group when `regex_scan2` matches (the two patterns
are mutually exclusive: they require different lengths), and in neither
group otherwise. -/
def classify_dir (s : String) : Cohort :=
  if isBaselineDir s then Cohort.BASELINE
  else if isScan2Dir s then Cohort.SCAN2
  else Cohort.REJECTED

/-- One step of `split_baseline_scan2`'s loop over the provided labels
(`runmriqc_group_local.py`, lines 97-119): append to the matching bucket,
or raise `ValueError` for a label that matches neither pattern. -/
def splitGo : List String → List String → List String → Except String (List String × List String)
  | [], bs, ss => Except.ok (bs, ss)
  | lab :: rest, bs, ss =>
    if isBaselineLabel lab then splitGo rest (bs ++ [lab]) ss
    else if isScan2Label lab then splitGo rest bs (ss ++ [lab])
    else Except.error
      ("Subject label " ++ lab ++ " does not match baseline (####) or scan2 (####1). Pass labels like 1001 or 10011 (or sub-1001/sub-10011).")

/-- `split_baseline_scan2(labels)`: `None` propagates as `(None, None)`;
otherwise the labels are split into the two buckets, an unmatched label
raises `ValueError` (modelled as `Except.error`), and an empty bucket is
returned as `None`. -/
def split_baseline_scan2 (labels : Option (List String)) :
    Except String (Option (List String) × Option (List String)) :=
  match labels with
  | none => Except.ok (none, none)
  | some labs =>
    (splitGo labs [] []).map
      (fun p => (if p.1 = [] then none else some p.1, if p.2 = [] then none else some p.2))

/-- The subject-id extraction used in `load_mriqc_tsv_subjects` and in
`build_mriqc_html_index` (`bids_qc_report.py`):
`re.match(r"(sub-\d{4}1?)", name)` — anchored at the start, four digits
after `sub-`, then a greedy optional literal `1`; returns the matched
group or `None`. -/
def extractSubId (name : String) : Option String :=
  match name.data with
  | 's' :: 'u' :: 'b' :: '-' :: a :: b :: c :: d :: rest =>
    if a.isDigit && b.isDigit && c.isDigit && d.isDigit then
      some (String.mk ('s' :: 'u' :: 'b' :: '-' :: a :: b :: c :: d ::
        (match rest with
         | '1' :: _ => ['1']
         | _ => [])))
    else none
  | _ => none

/-! ## Multi-Source QC Status Evaluator (`bids_qc_report.py`)

`evaluate_mriqc_status` returns the Python value `1`, `"no_bold"`,
`"no_t1"` or `0`; the mixed int/str return type is modelled by `PyVal`. -/

inductive PyVal where
  | int : Int → PyVal
  | str : String → PyVal
deriving DecidableEq

/-- The errors caught by `build_mriqc_html_index`: `except TimeoutError`
and `except OSError` (an unreachable network mount). -/
inductive OSErrorKind where
  | timeoutError
  | osError
deriving DecidableEq

/-- A directory entry: its name and whether `entry.is_file()` holds. -/
structure HtmlEntry where
  name : String
  isFile : Bool

/-- The result of `os.scandir(mriqc_html_dir)` driven to completion:
the directory entries seen, and `some err` when the traversal raised
(in which case the partially built index is discarded by the handler). -/
structure HtmlListing where
  entries : List HtmlEntry
  err : Option OSErrorKind

/-- The artifact index: `dict` from subject id to
`(has_t1_html, has_bold_html)`, as an insertion-ordered association list. -/
abbrev HtmlIdx := List (String × (Bool × Bool))

/-- `index.get(sub_id, (False, False))`. -/
def idxGet (idx : HtmlIdx) (k : String) : Bool × Bool :=
  ((List.find? (fun p => decide (p.1 = k)) idx).map Prod.snd).getD (false, false)

/-- `index[sub_id] = v`: update in place when the key exists, else append
(Python dict insertion-order semantics). -/
def idxSet (idx : HtmlIdx) (k : String) (v : Bool × Bool) : HtmlIdx :=
  if idx.any (fun p => decide (p.1 = k)) then
    idx.map (fun p => if p.1 = k then (k, v) else p)
  else idx ++ [(k, v)]

/-- The body of `build_mriqc_html_index`'s loop: skip non-files, skip names
that do not match `(sub-\d{4}1?)`, otherwise mark T1/BOLD html presence
by the substring tests `"T1w.html" in name` / `"bold.html" in name`. -/
def htmlEntryStep (idx : HtmlIdx) (e : HtmlEntry) : HtmlIdx :=
  if e.isFile = false then idx
  else
    match extractSubId e.name with
    | none => idx
    | some sid =>
      let tb := idxGet idx sid
      idxSet idx sid (tb.1 || containsSub e.name "T1w.html", tb.2 || containsSub e.name "bold.html")

/-- `build_mriqc_html_index` (`bids_qc_report.py`, lines 110-145): fold the
loop body over the directory entries; if the traversal raised
`TimeoutError` or `OSError`, return the empty index and let the TSVs carry
the logic. -/
def build_mriqc_html_index (l : HtmlListing) : HtmlIdx :=
  match l.err with
  | some _ => []
  | none => l.entries.foldl htmlEntryStep []

/-- `evaluate_mriqc_status` (`bids_qc_report.py`, lines 148-165):
tabular membership ORed with artifact-index evidence per modality, then
the four-way status code `1` / `"no_bold"` / `"no_t1"` / `0`. -/
def evaluate_mriqc_status (sub_id : String) (bold_set t1_set : List String)
    (html_index : HtmlIdx) : PyVal :=
  let in_tsv_t1 := t1_set.any (fun x => decide (x = sub_id))
  let in_tsv_bold := bold_set.any (fun x => decide (x = sub_id))
  let ht := idxGet html_index sub_id
  let has_t1 := in_tsv_t1 || ht.1
  let has_bold := in_tsv_bold || ht.2
  if has_t1 && has_bold then PyVal.int 1
  else if has_t1 && !has_bold then PyVal.str "no_bold"
  else if has_bold && !has_t1 then PyVal.str "no_t1"
  else PyVal.int 0

/-! The spec's QCStatus enum and resolution rule (section 4.3), kept as a
separate definition so the code's status codes can be compared against it. -/

inductive QCStatus where
  | bothPresent
  | t1Only
  | boldOnly
  | neither
deriving DecidableEq

/-- Modelled from the spec (section 4.3 resolution rule, for comparison with
`evaluate_mriqc_status`): evidence-has-T1 = tabular-T1 OR artifact-T1,
evidence-has-BOLD = tabular-BOLD OR artifact-BOLD, then the four-way
status. -/
def spec_resolve (tT1 aT1 tB aB : Bool) : QCStatus :=
  let hasT1 := tT1 || aT1
  let hasB := tB || aB
  if hasT1 && hasB then QCStatus.bothPresent
  else if hasT1 then QCStatus.t1Only
  else if hasB then QCStatus.boldOnly
  else QCStatus.neither

/-- The status encoding documented in `evaluate_mriqc_status`'s docstring:
`1` / `"no_bold"` / `"no_t1"` / `0`. -/
def statusCode : QCStatus → PyVal
  | QCStatus.bothPresent => PyVal.int 1
  | QCStatus.t1Only => PyVal.str "no_bold"
  | QCStatus.boldOnly => PyVal.str "no_t1"
  | QCStatus.neither => PyVal.int 0

/-! ## Selection of subjects needing QC (`mriqc_pipeline/mriqc_local.py`) -/

/-- Python `str(v)` on the MRIQC status cell. -/
def pyStr : PyVal → String
  | PyVal.int n => toString n
  | PyVal.str s => s

/-- Python `str.strip()` (remove leading and trailing whitespace). -/
def pyStrip (s : String) : String :=
  String.mk (((s.data.dropWhile Char.isWhitespace).reverse.dropWhile Char.isWhitespace).reverse)

/-- The row mask in `find_missing_mriqc_ids`:
`(col == 0) | (col == "0") | (col.astype(str).str.strip() == "0")`. -/
def maskMissing (v : PyVal) : Bool :=
  decide (v = PyVal.int 0) || decide (v = PyVal.str "0") || decide (pyStrip (pyStr v) = "0")

/-- `extract_id_num` (`mriqc_local.py`, lines 18-20):
`re.match(r"sub-(\d+)", sub_id)` — anchored at the start, one or more
digits, returning the digit group. -/
def extract_id_num (sub_id : String) : Option String :=
  match sub_id.data with
  | 's' :: 'u' :: 'b' :: '-' :: rest =>
    let ds := rest.takeWhile Char.isDigit
    if ds.isEmpty then none else some (String.mk ds)
  | _ => none

/-- A row of the scan-presence table as read by `find_missing_mriqc_ids`:
the subject `ID` column and the `MRIQC` status column. -/
structure PSRow where
  ID : String
  MRIQC : PyVal
deriving DecidableEq

/-- `find_missing_mriqc_ids` (`mriqc_local.py`, lines 32-38): filter rows by
the missing-status mask, extract the numeric id, drop rows where the
extraction returned `None`. -/
def find_missing_mriqc_ids (rows : List PSRow) : List String :=
  (rows.filter (fun r => maskMissing r.MRIQC)).filterMap (fun r => extract_id_num r.ID)

/-! ## Acquisition Presence Scanner (`bids_qc_report.py`)

`check_subject` walks the subject's BIDS tree with `os.walk` and tests each
file name against the five scan-category regexes.  `os.walk` is invoked
with its default `onerror=None`, so a directory whose listing raises is
silently skipped and a nonexistent root yields no entries at all. -/

/-- A file tree: files, readable directories, and directories whose
listing raises `OSError` when visited. -/
inductive FSTree where
  | file : String → FSTree
  | dir : String → List FSTree → FSTree
  | unreadable : String → FSTree

mutual
/-- File names produced under one node by `os.walk` with the default
`onerror=None`: an unreadable directory contributes nothing. -/
def walkFiles : FSTree → List String
  | FSTree.file n => [n]
  | FSTree.unreadable _ => []
  | FSTree.dir _ cs => walkFilesList cs
/-- `walkFiles` over a list of children, in order. -/
def walkFilesList : List FSTree → List String
  | [] => []
  | t :: ts => walkFiles t ++ walkFilesList ts
end

/-- `os.walk(sub_path)` flattened to the file names it yields.  A missing
root (`none`), a root that is a plain file, or an unreadable root all
yield no entries and raise nothing (default `onerror=None`). -/
def os_walk (root : Option FSTree) : List String :=
  match root with
  | none => []
  | some (FSTree.dir _ cs) => walkFilesList cs
  | some (FSTree.unreadable _) => []
  | some (FSTree.file _) => []

/-- `patterns["hippocampus"] = re.compile(r"acq-hippo.*_T2w\.nii\.gz$")`,
used with `.search`: the name ends with `_T2w.nii.gz` (11 chars) and
`acq-hippo` occurs somewhere before that tail. -/
def pat_hippocampus (f : String) : Bool :=
  strEndsWith f "_T2w.nii.gz" && containsSub (strDropRight f 11) "acq-hippo"

/-- `patterns["dwi"] = re.compile(r".*_dwi\.nii\.gz$")` with `.search`. -/
def pat_dwi (f : String) : Bool :=
  strEndsWith f "_dwi.nii.gz"

/-- `patterns["resting_state"] = re.compile(r"task-rest.*_bold\.nii\.gz$")`
with `.search` (`_bold.nii.gz` is 12 chars). -/
def pat_resting_state (f : String) : Bool :=
  strEndsWith f "_bold.nii.gz" && containsSub (strDropRight f 12) "task-rest"

/-- `patterns["think_aloud"] = re.compile(r"task-ta.*_bold\.nii\.gz$")`. -/
def pat_think_aloud (f : String) : Bool :=
  strEndsWith f "_bold.nii.gz" && containsSub (strDropRight f 12) "task-ta"

/-- `patterns["minds_eye"] = re.compile(r"task-me.*_bold\.nii\.gz$")`. -/
def pat_minds_eye (f : String) : Bool :=
  strEndsWith f "_bold.nii.gz" && containsSub (strDropRight f 12) "task-me"

/-- One output row of `check_subject`: the subject id, the five presence
booleans (the source stores 0/1 ints), and the MRIQC status cell. -/
structure SubjRow where
  ID : String
  hippocampus : Bool
  dwi : Bool
  resting_state : Bool
  think_aloud : Bool
  minds_eye : Bool
  MRIQC : PyVal
deriving DecidableEq

/-- `check_subject` (`bids_qc_report.py`, lines 171-193): every category
starts at 0 and is set to 1 as soon as some walked file name matches the
category's regex (the loop keeps scanning, which is equivalent to an
existence test over all walked files); the MRIQC cell is
`evaluate_mriqc_status`. -/
def check_subject (tree : Option FSTree) (sub_id : String)
    (bold_set t1_set : List String) (html_index : HtmlIdx) : SubjRow :=
  let fs := os_walk tree
  { ID := sub_id
    hippocampus := fs.any pat_hippocampus
    dwi := fs.any pat_dwi
    resting_state := fs.any pat_resting_state
    think_aloud := fs.any pat_think_aloud
    minds_eye := fs.any pat_minds_eye
    MRIQC := evaluate_mriqc_status sub_id bold_set t1_set html_index }

/-- The row-producing core of `process_group` (lines 199-210): one
`check_subject` row per subject, in order; no subject's outcome can stop
the others (the function is total). -/
def process_rows (subs : List (String × Option FSTree))
    (bold_set t1_set : List String) (html_index : HtmlIdx) : List SubjRow :=
  subs.map (fun p => check_subject p.2 p.1 bold_set t1_set html_index)

/-! ## Metrics Extraction & Flattening (`runmriqc_group_local.py`)

`_safe_read_json` + `_flatten` + the row assembly in `aggregate_iqms`,
and the column filter in `write_one` that decides what reaches the
snapshot and the canonical ledger. -/

/-- A scalar JSON value.  `null` models Python `None` (pandas treats it as
missing); numeric values are collapsed to `Int` — their arithmetic is
irrelevant here, only their dtype class matters. -/
inductive JVal where
  | num : Int → JVal
  | str : String → JVal
  | null
deriving DecidableEq

/-- A (possibly nested) JSON document value: scalar or object. -/
inductive JDoc where
  | val : JVal → JDoc
  | obj : List (String × JDoc) → JDoc

/-- The key-joining in `_flatten`:
`key = f"(prefix)(sep)(k)" if prefix else str(k)`. -/
def joinKey (pre sep k : String) : String :=
  if pre = "" then k else pre ++ sep ++ k

mutual
/-- `_flatten` on one value of an item: a nested object recurses with the
joined key, a scalar lands in the output under the joined key. -/
def flattenDoc (sep key : String) : JDoc → List (String × JVal)
  | JDoc.val v => [(key, v)]
  | JDoc.obj fields => flattenFields sep key fields
/-- `_flatten(d, prefix, sep)` (`runmriqc_group_local.py`, lines 68-76)
over the items of an object, in iteration order. -/
def flattenFields (sep : String) (pre : String) : List (String × JDoc) → List (String × JVal)
  | [] => []
  | (k, d) :: rest => flattenDoc sep (joinKey pre sep k) d ++ flattenFields sep pre rest
end

/-- One IQM JSON file as seen by `aggregate_iqms`: its base name
(`jp.name`), its full path (`str(jp)`), and either the parsed top-level
object or the exception text raised while opening/parsing it. -/
structure JsonSource where
  fname : String
  fpath : String
  content : Except String (List (String × JDoc))

/-- `_safe_read_json` (lines 60-65): the parsed dict, or on any exception
the marker dict with the error text and the path. -/
def safe_read_json (src : JsonSource) : List (String × JDoc) :=
  match src.content with
  | Except.ok d => d
  | Except.error e =>
    [("__read_error__", JDoc.val (JVal.str e)), ("__path__", JDoc.val (JVal.str src.fpath))]

/-- `re.search(r"sub-(\d+)", name)`: leftmost occurrence of `sub-`
followed by at least one digit; returns the (greedy) digit group. -/
def searchSubDigits : List Char → Option (List Char)
  | 's' :: 'u' :: 'b' :: '-' :: r =>
    let ds := r.takeWhile Char.isDigit
    if ds.isEmpty then searchSubDigits ('u' :: 'b' :: '-' :: r) else some ds
  | _ :: rest => searchSubDigits rest
  | [] => none

/-- The per-file row assembly in `aggregate_iqms` (lines 189-199): flatten
the (safely) read document, then attach `participant_id` (the searched
digit group, `None` when absent), `file_name` and `source_json`. -/
def metricRow (src : JsonSource) : List (String × JVal) :=
  flattenFields "." "" (safe_read_json src)
  ++ [("participant_id",
        match searchSubDigits src.fname.data with
        | some ds => JVal.str (String.mk ds)
        | none => JVal.null),
      ("file_name", JVal.str src.fname),
      ("source_json", JVal.str src.fpath)]

/-- Cell lookup in a flattened row (the rows read back as a DataFrame;
a missing key is a missing cell). -/
def rowGet (r : List (String × JVal)) (c : String) : Option JVal :=
  (r.find? (fun p => decide (p.1 = c))).map Prod.snd

/-- The DataFrame's columns: union of the rows' keys in first-seen order
(pandas column construction from a list of dicts). -/
def allColNames (rows : List (List (String × JVal))) : List String :=
  rows.foldl
    (fun acc r => acc ++ ((r.map Prod.fst).filter (fun c => decide (c ∉ acc)))) []

/-- pandas `select_dtypes(include="number")` membership for a column built
from these rows: every present cell is numeric or `None` (pandas stores
`None` as NaN in a numeric column) and at least one cell is actually
numeric — a single string cell forces object dtype. -/
def colIsNumeric (rows : List (List (String × JVal))) (c : String) : Bool :=
  rows.all (fun r =>
    match rowGet r c with
    | none => true
    | some (JVal.num _) => true
    | some JVal.null => true
    | some (JVal.str _) => false)
  && rows.any (fun r =>
    match rowGet r c with
    | some (JVal.num _) => true
    | _ => false)

/-- The column filter in `write_one` (lines 285-287):
`keep_cols = ["participant_id", "file_name"] + metric_cols` where
`metric_cols` are the numeric columns — these are the only columns that
reach the dated snapshot and the canonical ledger. -/
def write_one_keep_cols (srcs : List JsonSource) : List String :=
  let rows := srcs.map metricRow
  ["participant_id", "file_name"] ++ (allColNames rows).filter (fun c => colIsNumeric rows c)

/-! ## Outlier Annotator (`runmriqc_group_local.py`, lines 211-225)

`add_outlier_flags` works per numeric column.  Values are modelled as
exact rationals (`Option ℚ`, `none` = NaN).  The source computes
`z = (s - mean) / std` and flags `z.abs() >= z_thresh`; since `std` is a
square root, the flag test is carried here in the equivalent squared form
`(x - mean)^2 >= t^2 * var` (for `t > 0`; for `t <= 0` the test
`|z| >= t` holds for every non-missing cell), which avoids irrational
intermediate values while deciding exactly the same rows. -/

/-- One DataFrame column: its name, whether its dtype is numeric
(`select_dtypes(include="number")` membership), and its cells. -/
structure QCol where
  name : String
  isNum : Bool
  vals : List (Option ℚ)
deriving DecidableEq

/-- The non-missing cells of a column (`s.notna()` selection). -/
def nonNA (vs : List (Option ℚ)) : List ℚ := vs.filterMap id

/-- `s.mean(skipna=True)` over the non-missing cells. -/
def qmean (xs : List ℚ) : ℚ := xs.sum / xs.length

/-- The square of `s.std(skipna=True)` (pandas sample variance,
`ddof=1`); `std == 0` iff this is 0, and with at least 5 non-missing
cells `std` is never NaN. -/
def qvar (xs : List ℚ) : ℚ :=
  ((xs.map (fun x => (x - qmean xs) ^ 2)).sum) / ((xs.length : ℚ) - 1)

/-- The per-cell outlier test `z.abs() >= z_thresh` in squared form; a
missing cell has NaN z-score and `NaN >= t` is False in pandas. -/
def flagCell (μ v t : ℚ) : Option ℚ → Bool
  | none => false
  | some x => decide (t ≤ 0) || decide (t ^ 2 * v ≤ (x - μ) ^ 2)

/-- `add_outlier_flags(df, z_thresh)`: the original columns unchanged,
plus one `outlier__<name>` boolean column per numeric column that has at
least 5 non-missing cells and nonzero variance. -/
def add_outlier_flags (df : List QCol) (t : ℚ) : List QCol × List (String × List Bool) :=
  (df,
   df.filterMap (fun c =>
     if c.isNum = false then none
     else if (nonNA c.vals).length < 5 then none
     else if qvar (nonNA c.vals) = 0 then none
     else some ("outlier__" ++ c.name,
       c.vals.map (flagCell (qmean (nonNA c.vals)) (qvar (nonNA c.vals)) t))))

/-! ## Ledger Upsert Engine (`runmriqc_group_local.py`, lines 227-251)

A ledger row is keyed by `(participant_id, file_name)`; the payload and
the key components only ever meet equality and ordering, so keys are
modelled as naturals and the payload as an opaque list of integers. -/

/-- One ledger row: the two key columns and the remaining cells. -/
structure LRow where
  pid : Nat
  fname : Nat
  cells : List Int
deriving DecidableEq

/-- The de-duplication key `(participant_id, file_name)`. -/
def rkey (r : LRow) : Nat × Nat := (r.pid, r.fname)

/-- The ledger invariant: at most one row per key. -/
def NodupKeys (l : List LRow) : Prop := (l.map rkey).Nodup

instance (l : List LRow) : Decidable (NodupKeys l) :=
  inferInstanceAs (Decidable (l.map rkey).Nodup)

/-- Row order used by `sort_values(["participant_id", "file_name"])`:
lexicographic on the key. -/
def rowLe (a b : LRow) : Prop :=
  a.pid < b.pid ∨ (a.pid = b.pid ∧ a.fname ≤ b.fname)

instance : DecidableRel rowLe := fun a b => by
  unfold rowLe; infer_instance

instance : IsTotal LRow rowLe :=
  ⟨by intro a b; unfold rowLe; omega⟩

instance : IsTrans LRow rowLe :=
  ⟨by intro a b c; unfold rowLe; omega⟩

/-- Strict row order (used only in proofs: rows of a deduplicated sorted
ledger are pairwise strictly increasing in key). -/
def rowLt (a b : LRow) : Prop :=
  a.pid < b.pid ∨ (a.pid = b.pid ∧ a.fname < b.fname)

instance : IsAntisymm LRow rowLt :=
  ⟨by
    intro a b h1 h2
    exfalso
    rcases h1 with h1 | ⟨h1, h1f⟩ <;> rcases h2 with h2 | ⟨h2, h2f⟩ <;> omega⟩

/-- `df_all.drop_duplicates(subset=key_cols, keep="last")`: a row survives
iff no later row carries the same key; surviving rows keep their relative
order (pandas semantics). -/
def keepLast : List LRow → List LRow
  | [] => []
  | r :: rs => if ∃ s ∈ rs, rkey s = rkey r then keepLast rs else r :: keepLast rs

/-- `df_all.sort_values(["participant_id", "file_name"])`.  After the
de-duplication all keys are distinct, so any sorting algorithm produces
this unique key-ascending arrangement; insertion sort realizes it. -/
def sortByKey (l : List LRow) : List LRow := List.insertionSort rowLe l

/-- `upsert_group_tsv(df_new, canonical_path)` (lines 227-251): read the
prior ledger when the file exists (`none` models a missing file),
concatenate prior rows before new rows, de-duplicate keeping the last
occurrence (new wins), sort by the key.  The function returns the table
that `to_csv` then writes. -/
def upsert_group_tsv (ledger : Option (List LRow)) (df_new : List LRow) : List LRow :=
  let df_all :=
    match ledger with
    | some df_old => df_old ++ df_new
    | none => df_new
  sortByKey (keepLast df_all)

/-- The row a key resolves to: last occurrence wins (the lookup semantics
induced by `keep="last"`). -/
def lookupKey (k : Nat × Nat) (l : List LRow) : Option LRow :=
  (l.filter (fun r => decide (rkey r = k))).getLast?

/-! ### Helper lemmas about `keepLast`, `lookupKey` and `sortByKey` -/

theorem keepLast_subset (l : List LRow) : keepLast l ⊆ l := by
  induction l with
  | nil => simp [keepLast]
  | cons r rs ih =>
    unfold keepLast
    split
    · exact ih.trans (List.subset_cons_self r rs)
    · exact List.cons_subset_cons r ih

theorem keepLast_nodupKeys (l : List LRow) : NodupKeys (keepLast l) := by
  induction l with
  | nil => simp [keepLast, NodupKeys]
  | cons r rs ih =>
    unfold keepLast
    split
    · exact ih
    · rename_i h
      unfold NodupKeys at ih ⊢
      simp only [List.map_cons, List.nodup_cons]
      refine ⟨?_, ih⟩
      intro hmem
      rcases List.mem_map.1 hmem with ⟨s, hs, hkey⟩
      exact h ⟨s, keepLast_subset rs hs, hkey⟩

theorem getLast?_append_right {α : Type} (xs : List α) {ys : List α} (h : ys ≠ []) :
    (xs ++ ys).getLast? = ys.getLast? := by
  induction xs with
  | nil => rfl
  | cons a xs ih =>
    have hne : xs ++ ys ≠ [] := fun hc => h (List.append_eq_nil.1 hc).2
    rcases hx : xs ++ ys with _ | ⟨b, bs⟩
    · exact absurd hx hne
    · simp only [List.cons_append, hx, List.getLast?_cons_cons]
      rw [← hx, ih]

theorem lookupKey_keepLast (k : Nat × Nat) (l : List LRow) :
    lookupKey k (keepLast l) = lookupKey k l := by
  induction l with
  | nil => rfl
  | cons r rs ih =>
    unfold keepLast
    split
    · rename_i h
      rw [ih]
      unfold lookupKey
      by_cases hk : rkey r = k
      · obtain ⟨s, hs, hkey⟩ := h
        have hsf : s ∈ rs.filter (fun r => decide (rkey r = k)) :=
          List.mem_filter.2 ⟨hs, by simp [hkey, hk]⟩
        have hne : rs.filter (fun r => decide (rkey r = k)) ≠ [] :=
          List.ne_nil_of_mem hsf
        rcases hf : rs.filter (fun r => decide (rkey r = k)) with _ | ⟨b, bs⟩
        · exact absurd hf hne
        · simp [List.filter_cons, hk, hf]
      · simp [List.filter_cons, hk]
    · rename_i h
      unfold lookupKey
      by_cases hk : rkey r = k
      · have hrs : rs.filter (fun r => decide (rkey r = k)) = [] := by
          rw [List.filter_eq_nil_iff]
          intro s hs hdec
          exact h ⟨s, hs, by simpa [hk] using hdec⟩
        have hkl : (keepLast rs).filter (fun r => decide (rkey r = k)) = [] := by
          rw [List.filter_eq_nil_iff]
          intro s hs hdec
          exact h ⟨s, keepLast_subset rs hs, by simpa [hk] using hdec⟩
        simp [List.filter_cons, hk, hrs, hkl]
      · have h1 : (r :: keepLast rs).filter (fun r => decide (rkey r = k))
            = (keepLast rs).filter (fun r => decide (rkey r = k)) := by
          simp [List.filter_cons, hk]
        have h2 : (r :: rs).filter (fun r => decide (rkey r = k))
            = rs.filter (fun r => decide (rkey r = k)) := by
          simp [List.filter_cons, hk]
        rw [h1, h2]
        exact ih

theorem lookupKey_append_hit {k : Nat × Nat} (xs : List LRow) {ys : List LRow}
    (h : ∃ s ∈ ys, rkey s = k) : lookupKey k (xs ++ ys) = lookupKey k ys := by
  unfold lookupKey
  rw [List.filter_append]
  obtain ⟨s, hs, hkey⟩ := h
  have hne : ys.filter (fun r => decide (rkey r = k)) ≠ [] :=
    List.ne_nil_of_mem (List.mem_filter.2 ⟨hs, by simp [hkey]⟩)
  exact getLast?_append_right _ hne

theorem lookupKey_append_miss {k : Nat × Nat} (xs : List LRow) {ys : List LRow}
    (h : ∀ s ∈ ys, rkey s ≠ k) : lookupKey k (xs ++ ys) = lookupKey k xs := by
  unfold lookupKey
  rw [List.filter_append]
  have hnil : ys.filter (fun r => decide (rkey r = k)) = [] := by
    rw [List.filter_eq_nil_iff]
    intro s hs hdec
    exact h s hs (by simpa using hdec)
  rw [hnil, List.append_nil]

theorem lookupKey_of_mem {l : List LRow} {r : LRow} (hn : NodupKeys l) (hr : r ∈ l) :
    lookupKey (rkey r) l = some r := by
  induction l with
  | nil => cases hr
  | cons a as ih =>
    unfold NodupKeys at hn
    simp only [List.map_cons, List.nodup_cons] at hn
    rcases List.mem_cons.1 hr with rfl | hmem
    · have hnil : as.filter (fun s => decide (rkey s = rkey r)) = [] := by
        rw [List.filter_eq_nil_iff]
        intro s hs hdec
        exact hn.1 (List.mem_map.2 ⟨s, hs, by simpa using hdec⟩)
      unfold lookupKey
      simp [List.filter_cons, hnil]
    · have hne : rkey a ≠ rkey r := by
        intro hc
        exact hn.1 (hc ▸ List.mem_map.2 ⟨r, hmem, rfl⟩)
      unfold lookupKey
      simp only [List.filter_cons]
      have : (decide (rkey a = rkey r)) = false := by simp [hne]
      rw [this]
      simp only [Bool.false_eq_true, if_false]
      exact ih hn.2 hmem

theorem mem_of_lookupKey {l : List LRow} {k : Nat × Nat} {r : LRow}
    (h : lookupKey k l = some r) : r ∈ l ∧ rkey r = k := by
  unfold lookupKey at h
  have hm := List.mem_of_getLast?_eq_some h
  have := List.mem_filter.1 hm
  exact ⟨this.1, by simpa using this.2⟩

theorem filter_key_len_le_one {l : List LRow} (hn : NodupKeys l) (k : Nat × Nat) :
    (l.filter (fun r => decide (rkey r = k))).length ≤ 1 := by
  induction l with
  | nil => simp
  | cons a as ih =>
    unfold NodupKeys at hn
    simp only [List.map_cons, List.nodup_cons] at hn
    by_cases hk : rkey a = k
    · have hnil : as.filter (fun r => decide (rkey r = k)) = [] := by
        rw [List.filter_eq_nil_iff]
        intro s hs hdec
        exact hn.1 (List.mem_map.2 ⟨s, hs, by simp at hdec; rw [hdec, hk]⟩)
      simp [List.filter_cons, hk, hnil]
    · simp only [List.filter_cons]
      have : (decide (rkey a = k)) = false := by simp [hk]
      rw [this]
      simp only [Bool.false_eq_true, if_false]
      exact ih hn.2

theorem lookupKey_of_perm {l₁ l₂ : List LRow} (hn : NodupKeys l₁) (hp : l₁.Perm l₂)
    (k : Nat × Nat) : lookupKey k l₁ = lookupKey k l₂ := by
  have hf : (l₁.filter (fun r => decide (rkey r = k))).Perm
      (l₂.filter (fun r => decide (rkey r = k))) := hp.filter _
  have hlen := filter_key_len_le_one hn k
  unfold lookupKey
  rcases h1 : l₁.filter (fun r => decide (rkey r = k)) with _ | ⟨b, bs⟩
  · rw [h1] at hf
    have := List.nil_perm.1 hf
    rw [this]
  · rw [h1] at hf hlen
    rcases bs with _ | ⟨c, cs⟩
    · have := List.perm_singleton.1 hf.symm
      rw [this]
    · simp at hlen

theorem sortByKey_perm (l : List LRow) : (sortByKey l).Perm l :=
  List.perm_insertionSort rowLe l

theorem sortByKey_sorted (l : List LRow) : List.Sorted rowLe (sortByKey l) :=
  List.sorted_insertionSort rowLe l

theorem nodupKeys_of_perm {l₁ l₂ : List LRow} (hp : l₁.Perm l₂) (hn : NodupKeys l₁) :
    NodupKeys l₂ :=
  (hp.map rkey).nodup_iff.1 hn

theorem nodup_of_nodupKeys {l : List LRow} (hn : NodupKeys l) : l.Nodup :=
  List.Nodup.of_map rkey hn

/-- Two key-deduplicated, key-sorted row lists that resolve every key to
the same row are equal. -/
theorem sorted_key_ext {l₁ l₂ : List LRow}
    (hn₁ : NodupKeys l₁) (hn₂ : NodupKeys l₂)
    (hs₁ : List.Sorted rowLe l₁) (hs₂ : List.Sorted rowLe l₂)
    (h : ∀ k, lookupKey k l₁ = lookupKey k l₂) : l₁ = l₂ := by
  have hmem : ∀ r, r ∈ l₁ ↔ r ∈ l₂ := by
    intro r
    constructor
    · intro hr
      have := lookupKey_of_mem hn₁ hr
      rw [h (rkey r)] at this
      exact (mem_of_lookupKey this).1
    · intro hr
      have := lookupKey_of_mem hn₂ hr
      rw [← h (rkey r)] at this
      exact (mem_of_lookupKey this).1
  have hperm : l₁.Perm l₂ :=
    (List.perm_ext_iff_of_nodup (nodup_of_nodupKeys hn₁) (nodup_of_nodupKeys hn₂)).2 hmem
  have hstrict : ∀ {l : List LRow}, NodupKeys l → List.Sorted rowLe l →
      List.Sorted rowLt l := by
    intro l hn hs
    unfold NodupKeys at hn
    have hpw : l.Pairwise (fun a b => rkey a ≠ rkey b) :=
      (List.pairwise_map).1 hn
    refine (hs.and hpw).imp ?_
    rintro a b ⟨hle, hne⟩
    rcases hle with hlt | ⟨hp, hf⟩
    · exact Or.inl hlt
    · refine Or.inr ⟨hp, ?_⟩
      rcases Nat.lt_or_ge a.fname b.fname with hlt | hge
      · exact hlt
      · exfalso
        apply hne
        unfold rkey
        have : a.fname = b.fname := Nat.le_antisymm hf hge
        rw [hp, this]
  exact List.eq_of_perm_of_sorted hperm (hstrict hn₁ hs₁) (hstrict hn₂ hs₂)

theorem nodupKeys_upsert (ledger : Option (List LRow)) (df_new : List LRow) :
    NodupKeys (upsert_group_tsv ledger df_new) := by
  unfold upsert_group_tsv
  exact nodupKeys_of_perm (sortByKey_perm _).symm (keepLast_nodupKeys _)

theorem lookupKey_upsert_some (L B : List LRow) (k : Nat × Nat) :
    lookupKey k (upsert_group_tsv (some L) B) = lookupKey k (L ++ B) := by
  unfold upsert_group_tsv
  have h1 : lookupKey k (sortByKey (keepLast (L ++ B))) = lookupKey k (keepLast (L ++ B)) :=
    (lookupKey_of_perm (keepLast_nodupKeys _) (sortByKey_perm _).symm k).symm
  rw [h1, lookupKey_keepLast]

theorem upsert_some_eq (L B : List LRow) :
    upsert_group_tsv (some L) B = sortByKey (keepLast (L ++ B)) := rfl

/-- C1: merging a batch into an existing ledger with `upsert_group_tsv`
yields a table with at most one row per `(participant_id, file_name)` key
whose rows are exactly: the batch's rows (so every key in both ledger and
batch resolves to the batch's row — new wins), plus every prior ledger
row whose key does not occur in the batch, kept unchanged. -/
theorem upsert_new_wins_unique_keys (L B : List LRow)
    (hL : NodupKeys L) (hB : NodupKeys B) :
    NodupKeys (upsert_group_tsv (some L) B)
    ∧ (∀ r ∈ B, r ∈ upsert_group_tsv (some L) B)
    ∧ (∀ r ∈ L, rkey r ∉ B.map rkey → r ∈ upsert_group_tsv (some L) B)
    ∧ (∀ r ∈ upsert_group_tsv (some L) B, r ∈ B ∨ (r ∈ L ∧ rkey r ∉ B.map rkey)) := by
  refine ⟨nodupKeys_upsert _ _, ?_, ?_, ?_⟩
  · intro r hr
    have h1 : lookupKey (rkey r) (upsert_group_tsv (some L) B) = some r := by
      rw [lookupKey_upsert_some, lookupKey_append_hit L ⟨r, hr, rfl⟩,
        lookupKey_of_mem hB hr]
    exact (mem_of_lookupKey h1).1
  · intro r hr hnot
    have hmiss : ∀ s ∈ B, rkey s ≠ rkey r := by
      intro s hs hc
      exact hnot (List.mem_map.2 ⟨s, hs, hc⟩)
    have h1 : lookupKey (rkey r) (upsert_group_tsv (some L) B) = some r := by
      rw [lookupKey_upsert_some, lookupKey_append_miss L hmiss, lookupKey_of_mem hL hr]
    exact (mem_of_lookupKey h1).1
  · intro r hr
    have h1 := lookupKey_of_mem (nodupKeys_upsert (some L) B) hr
    rw [lookupKey_upsert_some] at h1
    by_cases hex : ∃ s ∈ B, rkey s = rkey r
    · rw [lookupKey_append_hit L hex] at h1
      exact Or.inl (mem_of_lookupKey h1).1
    · push_neg at hex
      rw [lookupKey_append_miss L hex] at h1
      refine Or.inr ⟨(mem_of_lookupKey h1).1, ?_⟩
      intro hmem
      rcases List.mem_map.1 hmem with ⟨s, hs, hkey⟩
      exact hex s hs hkey

/-- Witness for C1 at the spec's supersession scenario: ledger holds key
(1001, 1) with payload [10] and key (1002, 1) with payload [20]; the batch
holds key (1001, 1) with payload [99]. -/
theorem upsert_new_wins_unique_keys_witness :
    NodupKeys [(⟨1001, 1, [10]⟩ : LRow), ⟨1002, 1, [20]⟩]
    ∧ NodupKeys [(⟨1001, 1, [99]⟩ : LRow)]
    ∧ (NodupKeys (upsert_group_tsv (some [(⟨1001, 1, [10]⟩ : LRow), ⟨1002, 1, [20]⟩])
          [(⟨1001, 1, [99]⟩ : LRow)])
      ∧ (∀ r ∈ [(⟨1001, 1, [99]⟩ : LRow)],
          r ∈ upsert_group_tsv (some [(⟨1001, 1, [10]⟩ : LRow), ⟨1002, 1, [20]⟩])
            [(⟨1001, 1, [99]⟩ : LRow)])
      ∧ (∀ r ∈ [(⟨1001, 1, [10]⟩ : LRow), ⟨1002, 1, [20]⟩],
          rkey r ∉ ([(⟨1001, 1, [99]⟩ : LRow)]).map rkey →
          r ∈ upsert_group_tsv (some [(⟨1001, 1, [10]⟩ : LRow), ⟨1002, 1, [20]⟩])
            [(⟨1001, 1, [99]⟩ : LRow)])
      ∧ (∀ r ∈ upsert_group_tsv (some [(⟨1001, 1, [10]⟩ : LRow), ⟨1002, 1, [20]⟩])
            [(⟨1001, 1, [99]⟩ : LRow)],
          r ∈ [(⟨1001, 1, [99]⟩ : LRow)]
          ∨ (r ∈ [(⟨1001, 1, [10]⟩ : LRow), ⟨1002, 1, [20]⟩]
              ∧ rkey r ∉ ([(⟨1001, 1, [99]⟩ : LRow)]).map rkey))) :=
  ⟨by decide, by decide,
    upsert_new_wins_unique_keys [⟨1001, 1, [10]⟩, ⟨1002, 1, [20]⟩] [⟨1001, 1, [99]⟩]
      (by decide) (by decide)⟩

theorem lookupKey_upsert (ledger : Option (List LRow)) (B : List LRow) (k : Nat × Nat) :
    lookupKey k (upsert_group_tsv ledger B) = lookupKey k (ledger.getD [] ++ B) := by
  cases ledger with
  | some L => exact lookupKey_upsert_some L B k
  | none =>
    have h1 : lookupKey k (sortByKey (keepLast B)) = lookupKey k (keepLast B) :=
      (lookupKey_of_perm (keepLast_nodupKeys _) (sortByKey_perm _).symm k).symm
    show lookupKey k (sortByKey (keepLast B)) = _
    rw [h1, lookupKey_keepLast, Option.getD_none, List.nil_append]

theorem sorted_upsert (ledger : Option (List LRow)) (B : List LRow) :
    List.Sorted rowLe (upsert_group_tsv ledger B) := by
  cases ledger <;> exact sortByKey_sorted _

/-- C2: whatever the prior ledger state (absent file included), re-merging
the identical batch into the already-merged ledger reproduces the merged
ledger row-for-row, so the second `to_csv` write is byte-identical to the
first. -/
theorem upsert_idempotent (ledger : Option (List LRow)) (B : List LRow) :
    upsert_group_tsv (some (upsert_group_tsv ledger B)) B
      = upsert_group_tsv ledger B := by
  apply sorted_key_ext (nodupKeys_upsert _ _) (nodupKeys_upsert _ _)
      (sorted_upsert _ _) (sorted_upsert _ _)
  intro k
  rw [lookupKey_upsert, lookupKey_upsert]
  simp only [Option.getD_some]
  by_cases hex : ∃ s ∈ B, rkey s = k
  · rw [lookupKey_append_hit _ hex, lookupKey_append_hit _ hex]
  · push_neg at hex
    rw [lookupKey_append_miss _ hex, lookupKey_append_miss _ hex,
      lookupKey_upsert, lookupKey_append_miss _ hex]

/-- C4 counterexample: contrary to the never-throws contract, the label
classifier `split_baseline_scan2` raises `ValueError` on the unmatched
input `"abc"` instead of classifying it as REJECTED. -/
theorem split_raises_on_unmatched_label :
    split_baseline_scan2 (some ["abc"]) =
      Except.error "Subject label abc does not match baseline (####) or scan2 (####1). Pass labels like 1001 or 10011 (or sub-1001/sub-10011)." := rfl

/-- C4 amended: the directory-name classifier of the report tool is a
total function into BASELINE / SCAN2 / REJECTED and yields REJECTED on
every unmatched input; the label splitter of the aggregation tool is also
total on matched labels but raises `ValueError` (an `Except.error`) on an
unmatched label instead of returning REJECTED. -/
theorem classifier_totality_amended (s lab : String)
    (hs1 : isBaselineDir s = false) (hs2 : isScan2Dir s = false)
    (hl1 : isBaselineLabel lab = false) (hl2 : isScan2Label lab = false) :
    (classify_dir s = Cohort.BASELINE ∨ classify_dir s = Cohort.SCAN2
      ∨ classify_dir s = Cohort.REJECTED)
    ∧ classify_dir s = Cohort.REJECTED
    ∧ split_baseline_scan2 (some [lab]) =
        Except.error ("Subject label " ++ lab ++ " does not match baseline (####) or scan2 (####1). Pass labels like 1001 or 10011 (or sub-1001/sub-10011).") := by
  refine ⟨?_, ?_, ?_⟩
  · unfold classify_dir
    split_ifs <;> simp
  · simp [classify_dir, hs1, hs2]
  · simp [split_baseline_scan2, splitGo, hl1, hl2, Except.map]

/-- Witness for C4's amended statement at the unmatched input `"abc"`. -/
theorem classifier_totality_amended_witness :
    (isBaselineDir "abc" = false ∧ isScan2Dir "abc" = false
      ∧ isBaselineLabel "abc" = false ∧ isScan2Label "abc" = false)
    ∧ ((classify_dir "abc" = Cohort.BASELINE ∨ classify_dir "abc" = Cohort.SCAN2
          ∨ classify_dir "abc" = Cohort.REJECTED)
      ∧ classify_dir "abc" = Cohort.REJECTED
      ∧ split_baseline_scan2 (some ["abc"]) =
          Except.error ("Subject label " ++ "abc" ++ " does not match baseline (####) or scan2 (####1). Pass labels like 1001 or 10011 (or sub-1001/sub-10011).")) :=
  ⟨⟨by decide, by decide, by decide, by decide⟩,
    classifier_totality_amended "abc" "abc" (by decide) (by decide) (by decide) (by decide)⟩

/-- C8: a subject identifier matching the follow-up pattern
`sub-\d{4}1$` is classified SCAN2 (never BASELINE: `regex_baseline` does
not match it), and the extraction `(sub-\d{4}1?)` applied to any QC
result name beginning with that identifier returns the identifier with
its trailing follow-up digit preserved.  At the bare-label level, the
matching label goes to the scan2 bucket, never the baseline bucket. -/
theorem scan2_classified_scan2_id_preserved (a b c d : Char) (rest : String)
    (ha : a.isDigit = true) (hb : b.isDigit = true)
    (hc : c.isDigit = true) (hd : d.isDigit = true) :
    isScan2Dir (String.mk ['s', 'u', 'b', '-', a, b, c, d, '1']) = true
    ∧ isBaselineDir (String.mk ['s', 'u', 'b', '-', a, b, c, d, '1']) = false
    ∧ classify_dir (String.mk ['s', 'u', 'b', '-', a, b, c, d, '1']) = Cohort.SCAN2
    ∧ extractSubId (String.mk ['s', 'u', 'b', '-', a, b, c, d, '1'] ++ rest)
        = some (String.mk ['s', 'u', 'b', '-', a, b, c, d, '1'])
    ∧ split_baseline_scan2 (some [String.mk [a, b, c, d, '1']])
        = Except.ok (none, some [String.mk [a, b, c, d, '1']]) := by
  have hs2 : isScan2Dir (String.mk ['s', 'u', 'b', '-', a, b, c, d, '1']) = true := by
    simp [isScan2Dir, ha, hb, hc, hd]
  have hb0 : isBaselineDir (String.mk ['s', 'u', 'b', '-', a, b, c, d, '1']) = false := by
    simp [isBaselineDir]
  have hlb : isBaselineLabel (String.mk [a, b, c, d, '1']) = false := by
    simp [isBaselineLabel]
  have hls : isScan2Label (String.mk [a, b, c, d, '1']) = true := by
    simp [isScan2Label, ha, hb, hc, hd]
  refine ⟨hs2, hb0, ?_, ?_, ?_⟩
  · simp [classify_dir, hb0, hs2]
  · show extractSubId
        (String.mk ('s' :: 'u' :: 'b' :: '-' :: a :: b :: c :: d :: '1' :: rest.data)) = _
    simp [extractSubId, ha, hb, hc, hd]
  · simp [split_baseline_scan2, splitGo, hlb, hls, Except.map]

/-- Witness for C8 at the spec's example follow-up subject `sub-10011`
and the result name `sub-10011_task-rest_bold.html`. -/
theorem scan2_classified_scan2_id_preserved_witness :
    (Char.isDigit '1' = true ∧ Char.isDigit '0' = true)
    ∧ (isScan2Dir (String.mk ['s', 'u', 'b', '-', '1', '0', '0', '1', '1']) = true
      ∧ isBaselineDir (String.mk ['s', 'u', 'b', '-', '1', '0', '0', '1', '1']) = false
      ∧ classify_dir (String.mk ['s', 'u', 'b', '-', '1', '0', '0', '1', '1']) = Cohort.SCAN2
      ∧ extractSubId (String.mk ['s', 'u', 'b', '-', '1', '0', '0', '1', '1']
            ++ "_task-rest_bold.html")
          = some (String.mk ['s', 'u', 'b', '-', '1', '0', '0', '1', '1'])
      ∧ split_baseline_scan2 (some [String.mk ['1', '0', '0', '1', '1']])
          = Except.ok (none, some [String.mk ['1', '0', '0', '1', '1']])) :=
  ⟨⟨by decide, by decide⟩,
    scan2_classified_scan2_id_preserved '1' '0' '0' '1' "_task-rest_bold.html"
      (by decide) (by decide) (by decide) (by decide)⟩

/-- C7: `evaluate_mriqc_status` equals the spec's OR-composed resolution
rule applied to the four evidence bits (tabular-T1, artifact-T1,
tabular-BOLD, artifact-BOLD), and at the required scenario
(tabular-T1 = false, tabular-BOLD = true, artifact-T1 = true,
artifact-BOLD = false) it yields the BOTH_PRESENT code `1`. -/
theorem evaluate_status_or_composition :
    (∀ (sub : String) (bold_set t1_set : List String) (idx : HtmlIdx),
      evaluate_mriqc_status sub bold_set t1_set idx
        = statusCode (spec_resolve
            (t1_set.any (fun x => decide (x = sub))) (idxGet idx sub).1
            (bold_set.any (fun x => decide (x = sub))) (idxGet idx sub).2))
    ∧ evaluate_mriqc_status "sub-1001" ["sub-1001"] [] [("sub-1001", (true, false))]
        = statusCode QCStatus.bothPresent := by
  constructor
  · intro sub bold_set t1_set idx
    unfold evaluate_mriqc_status spec_resolve statusCode
    rcases idxGet idx sub with ⟨ht, hb⟩
    cases t1_set.any (fun x => decide (x = sub)) <;>
      cases bold_set.any (fun x => decide (x = sub)) <;>
      cases ht <;> cases hb <;> rfl
  · rfl

/-- C6: when the artifact-directory traversal raises (`TimeoutError` or
`OSError`), `build_mriqc_html_index` returns the empty index — discarding
any partially built entries — and every subject's status equals the one
computed from an empty artifact index, i.e. the evaluator degrades to
tabular-only evidence and the run keeps going (the functions are total). -/
theorem unreachable_artifacts_degrade_to_tabular (l : HtmlListing) (e : OSErrorKind)
    (sub : String) (bold_set t1_set : List String) (h : l.err = some e) :
    build_mriqc_html_index l = []
    ∧ evaluate_mriqc_status sub bold_set t1_set (build_mriqc_html_index l)
        = evaluate_mriqc_status sub bold_set t1_set [] := by
  have hb : build_mriqc_html_index l = [] := by
    unfold build_mriqc_html_index
    rw [h]
  exact ⟨hb, by rw [hb]⟩

/-- Witness for C6: a listing whose traversal timed out after seeing one
valid report entry; the entry is discarded and the status for its subject
is the tabular-only one. -/
theorem unreachable_artifacts_degrade_to_tabular_witness :
    (HtmlListing.mk [HtmlEntry.mk "sub-1001_T1w.html" true]
        (some OSErrorKind.timeoutError)).err = some OSErrorKind.timeoutError
    ∧ (build_mriqc_html_index
        (HtmlListing.mk [HtmlEntry.mk "sub-1001_T1w.html" true]
          (some OSErrorKind.timeoutError)) = []
      ∧ evaluate_mriqc_status "sub-1001" ["sub-1001"] []
          (build_mriqc_html_index
            (HtmlListing.mk [HtmlEntry.mk "sub-1001_T1w.html" true]
              (some OSErrorKind.timeoutError)))
          = evaluate_mriqc_status "sub-1001" ["sub-1001"] [] []) :=
  ⟨rfl,
    unreachable_artifacts_degrade_to_tabular
      (HtmlListing.mk [HtmlEntry.mk "sub-1001_T1w.html" true]
        (some OSErrorKind.timeoutError))
      OSErrorKind.timeoutError "sub-1001" ["sub-1001"] [] rfl⟩

/-- C10: a status cell passes `find_missing_mriqc_ids`' mask exactly when
the recorded MRIQC status is 0 (as the int `0` or, after a CSV round
trip, the string `"0"`); the partial statuses `"no_bold"` and `"no_t1"`
are never selected.  Consequently the ids selected for QC computation are
exactly those of rows recording status 0, and a status produced by
`evaluate_mriqc_status` is selected iff it is the NEITHER code `0`. -/
theorem missing_selection_is_status_zero (rows : List PSRow) (idWanted : String)
    (hrange : ∀ r ∈ rows,
      r.MRIQC = PyVal.int 0 ∨ r.MRIQC = PyVal.int 1 ∨ r.MRIQC = PyVal.str "0"
      ∨ r.MRIQC = PyVal.str "1" ∨ r.MRIQC = PyVal.str "no_bold"
      ∨ r.MRIQC = PyVal.str "no_t1") :
    (idWanted ∈ find_missing_mriqc_ids rows ↔
      ∃ r ∈ rows, (r.MRIQC = PyVal.int 0 ∨ r.MRIQC = PyVal.str "0")
        ∧ extract_id_num r.ID = some idWanted)
    ∧ (∀ (sub : String) (bold_set t1_set : List String) (idx : HtmlIdx),
        maskMissing (evaluate_mriqc_status sub bold_set t1_set idx) = true ↔
          evaluate_mriqc_status sub bold_set t1_set idx = PyVal.int 0) := by
  have hmask : ∀ r ∈ rows, (maskMissing r.MRIQC = true ↔
      (r.MRIQC = PyVal.int 0 ∨ r.MRIQC = PyVal.str "0")) := by
    intro r hr
    rcases hrange r hr with h | h | h | h | h | h <;> rw [h] <;> simp [maskMissing] <;> decide
  constructor
  · unfold find_missing_mriqc_ids
    simp only [List.mem_filterMap, List.mem_filter]
    constructor
    · rintro ⟨r, ⟨hr, hm⟩, hid⟩
      exact ⟨r, hr, (hmask r hr).1 hm, hid⟩
    · rintro ⟨r, hr, hst, hid⟩
      exact ⟨r, ⟨hr, (hmask r hr).2 hst⟩, hid⟩
  · intro sub bold_set t1_set idx
    unfold evaluate_mriqc_status
    rcases idxGet idx sub with ⟨ht, hb⟩
    cases t1_set.any (fun x => decide (x = sub)) <;>
      cases bold_set.any (fun x => decide (x = sub)) <;>
      cases ht <;> cases hb <;> simp [maskMissing] <;> decide

/-- Witness for C10 on a five-row presence table covering every recorded
status shape; only the status-0 rows' ids (1001 and 1005) are selected. -/
theorem missing_selection_is_status_zero_witness :
    (∀ r ∈ [PSRow.mk "sub-1001" (PyVal.int 0), PSRow.mk "sub-1002" (PyVal.str "no_bold"),
        PSRow.mk "sub-1003" (PyVal.str "no_t1"), PSRow.mk "sub-1004" (PyVal.int 1),
        PSRow.mk "sub-1005" (PyVal.str "0")],
      r.MRIQC = PyVal.int 0 ∨ r.MRIQC = PyVal.int 1 ∨ r.MRIQC = PyVal.str "0"
      ∨ r.MRIQC = PyVal.str "1" ∨ r.MRIQC = PyVal.str "no_bold"
      ∨ r.MRIQC = PyVal.str "no_t1")
    ∧ (("1001" ∈ find_missing_mriqc_ids
          [PSRow.mk "sub-1001" (PyVal.int 0), PSRow.mk "sub-1002" (PyVal.str "no_bold"),
            PSRow.mk "sub-1003" (PyVal.str "no_t1"), PSRow.mk "sub-1004" (PyVal.int 1),
            PSRow.mk "sub-1005" (PyVal.str "0")] ↔
        ∃ r ∈ [PSRow.mk "sub-1001" (PyVal.int 0), PSRow.mk "sub-1002" (PyVal.str "no_bold"),
            PSRow.mk "sub-1003" (PyVal.str "no_t1"), PSRow.mk "sub-1004" (PyVal.int 1),
            PSRow.mk "sub-1005" (PyVal.str "0")],
          (r.MRIQC = PyVal.int 0 ∨ r.MRIQC = PyVal.str "0")
            ∧ extract_id_num r.ID = some "1001")
      ∧ (∀ (sub : String) (bold_set t1_set : List String) (idx : HtmlIdx),
          maskMissing (evaluate_mriqc_status sub bold_set t1_set idx) = true ↔
            evaluate_mriqc_status sub bold_set t1_set idx = PyVal.int 0)) :=
  ⟨by decide,
    missing_selection_is_status_zero
      [PSRow.mk "sub-1001" (PyVal.int 0), PSRow.mk "sub-1002" (PyVal.str "no_bold"),
        PSRow.mk "sub-1003" (PyVal.str "no_t1"), PSRow.mk "sub-1004" (PyVal.int 1),
        PSRow.mk "sub-1005" (PyVal.str "0")] "1001" (by decide)⟩

/-- C5 counterexample: for a subject whose acquisition root does not
exist, `check_subject` signals nothing — its type has no error channel —
and returns exactly the all-false presence row (with the tabular-only
NEITHER status here), contradicting the claim that a missing root is an
error signaled to the caller rather than an all-false presence vector. -/
theorem missing_root_yields_allfalse_row :
    check_subject none "sub-1001" [] [] [] =
      SubjRow.mk "sub-1001" false false false false false (PyVal.int 0) := rfl

/-- C5 amended: `check_subject` walks with `os.walk`'s default
`onerror=None`, so a missing root directory and an unreadable subtree are
both silently treated as contributing no files: the presence vector of a
subject with a missing root is all-false (no error is raised), an
unreadable subtree is skipped rather than being a hard error, and every
subject still yields exactly one row of the group table. -/
theorem scanner_silently_skips_missing_and_unreadable
    (sub nm : String) (bold_set t1_set : List String) (idx : HtmlIdx)
    (subs : List (String × Option FSTree)) :
    (check_subject none sub bold_set t1_set idx).hippocampus = false
    ∧ (check_subject none sub bold_set t1_set idx).dwi = false
    ∧ (check_subject none sub bold_set t1_set idx).resting_state = false
    ∧ (check_subject none sub bold_set t1_set idx).think_aloud = false
    ∧ (check_subject none sub bold_set t1_set idx).minds_eye = false
    ∧ os_walk (some (FSTree.unreadable nm)) = []
    ∧ walkFiles (FSTree.unreadable nm) = []
    ∧ (process_rows subs bold_set t1_set idx).length = subs.length := by
  refine ⟨rfl, rfl, rfl, rfl, rfl, rfl, rfl, ?_⟩
  unfold process_rows
  exact List.length_map _ _

/-- A scalar of numeric dtype (used to state that a metric row never
binds the read-error marker to a number). -/
def isNumVal : JVal → Bool
  | JVal.num _ => true
  | _ => false

/-- C3 counterexample: a batch with one well-formed IQM document and one
malformed one.  The claim requires the read-error marker to be visible in
the resulting ledger, but `write_one` keeps only the identifier columns
plus the numeric metric columns, and the string-valued `__read_error__`
column is not among them. -/
theorem read_error_marker_dropped_from_ledger_columns :
    "__read_error__" ∉ write_one_keep_cols
      [JsonSource.mk "sub-1001_T1w.json" "/deriv/sub-1001/anat/sub-1001_T1w.json"
          (Except.ok [("cjv", JDoc.val (JVal.num 3))]),
        JsonSource.mk "sub-1002_T1w.json" "/deriv/sub-1002/anat/sub-1002_T1w.json"
          (Except.error "JSONDecodeError Expecting value line 1 column 1")] := by
  decide

/-- C3 amended: an unreadable or malformed QC result document does not
abort the batch — every source still yields its flattened row, and the
failed one carries the explicit `__read_error__` marker with the
exception text — but `write_one` keeps only `participant_id`,
`file_name` and the numeric metric columns, so (whenever the documents do
not themselves bind a number to a field named `__read_error__`) the
string-valued marker column is dropped from what is written to the
snapshot and the canonical ledger, where the failure surfaces only as a
row with no numeric metrics. -/
theorem read_error_marker_in_record_not_in_ledger (srcs : List JsonSource)
    (src : JsonSource) (e : String) (hmem : src ∈ srcs)
    (herr : src.content = Except.error e)
    (hres : ∀ s ∈ srcs, ∀ p ∈ metricRow s, p.1 = "__read_error__" → isNumVal p.2 = false) :
    ("__read_error__", JVal.str e) ∈ metricRow src
    ∧ (srcs.map metricRow).length = srcs.length
    ∧ metricRow src ∈ srcs.map metricRow
    ∧ "__read_error__" ∉ write_one_keep_cols srcs := by
  refine ⟨?_, List.length_map _ _, List.mem_map_of_mem _ hmem, ?_⟩
  · unfold metricRow safe_read_json
    rw [herr]
    simp [flattenFields, flattenDoc, joinKey]
  · intro hin
    have heq : write_one_keep_cols srcs = ["participant_id", "file_name"] ++
        (allColNames (srcs.map metricRow)).filter
          (fun c => colIsNumeric (srcs.map metricRow) c) := rfl
    rw [heq] at hin
    rcases List.mem_append.1 hin with h | h
    · exact absurd h (by decide)
    · have hcol := (List.mem_filter.1 h).2
      unfold colIsNumeric at hcol
      rw [Bool.and_eq_true] at hcol
      rcases List.any_eq_true.1 hcol.2 with ⟨row, hrow, hcell⟩
      rcases List.mem_map.1 hrow with ⟨s, hs, hroweq⟩
      subst hroweq
      rcases hget : rowGet (metricRow s) "__read_error__" with _ | v
      · rw [hget] at hcell
        simp at hcell
      · rw [hget] at hcell
        rcases v with n | t | _
        · unfold rowGet at hget
          rcases hfind : List.find? (fun p => decide (p.1 = "__read_error__")) (metricRow s)
            with _ | p
          · rw [hfind] at hget
            simp at hget
          · rw [hfind] at hget
            have hp2 : p.2 = JVal.num n := by
              simpa using hget
            have hp1 : p.1 = "__read_error__" := by
              simpa using List.find?_some hfind
            have hflat := hres s hs p (List.mem_of_find?_eq_some hfind) hp1
            rw [hp2] at hflat
            simp [isNumVal] at hflat
        · simp at hcell
        · simp at hcell

/-- Witness for C3's amended statement at the two-source batch of the
counterexample. -/
theorem read_error_marker_in_record_not_in_ledger_witness :
    ((JsonSource.mk "sub-1002_T1w.json" "/deriv/sub-1002/anat/sub-1002_T1w.json"
        (Except.error "JSONDecodeError Expecting value line 1 column 1")) ∈
      [JsonSource.mk "sub-1001_T1w.json" "/deriv/sub-1001/anat/sub-1001_T1w.json"
          (Except.ok [("cjv", JDoc.val (JVal.num 3))]),
        JsonSource.mk "sub-1002_T1w.json" "/deriv/sub-1002/anat/sub-1002_T1w.json"
          (Except.error "JSONDecodeError Expecting value line 1 column 1")]
      ∧ (∀ s ∈ [JsonSource.mk "sub-1001_T1w.json" "/deriv/sub-1001/anat/sub-1001_T1w.json"
            (Except.ok [("cjv", JDoc.val (JVal.num 3))]),
          JsonSource.mk "sub-1002_T1w.json" "/deriv/sub-1002/anat/sub-1002_T1w.json"
            (Except.error "JSONDecodeError Expecting value line 1 column 1")],
          ∀ p ∈ metricRow s, p.1 = "__read_error__" → isNumVal p.2 = false))
    ∧ (("__read_error__",
          JVal.str "JSONDecodeError Expecting value line 1 column 1") ∈
        metricRow (JsonSource.mk "sub-1002_T1w.json"
          "/deriv/sub-1002/anat/sub-1002_T1w.json"
          (Except.error "JSONDecodeError Expecting value line 1 column 1"))
      ∧ "__read_error__" ∉ write_one_keep_cols
          [JsonSource.mk "sub-1001_T1w.json" "/deriv/sub-1001/anat/sub-1001_T1w.json"
              (Except.ok [("cjv", JDoc.val (JVal.num 3))]),
            JsonSource.mk "sub-1002_T1w.json" "/deriv/sub-1002/anat/sub-1002_T1w.json"
              (Except.error "JSONDecodeError Expecting value line 1 column 1")]) := by
  refine ⟨⟨by simp, by decide⟩, ?_, ?_⟩
  · exact (read_error_marker_in_record_not_in_ledger
      [JsonSource.mk "sub-1001_T1w.json" "/deriv/sub-1001/anat/sub-1001_T1w.json"
          (Except.ok [("cjv", JDoc.val (JVal.num 3))]),
        JsonSource.mk "sub-1002_T1w.json" "/deriv/sub-1002/anat/sub-1002_T1w.json"
          (Except.error "JSONDecodeError Expecting value line 1 column 1")]
      (JsonSource.mk "sub-1002_T1w.json" "/deriv/sub-1002/anat/sub-1002_T1w.json"
        (Except.error "JSONDecodeError Expecting value line 1 column 1"))
      "JSONDecodeError Expecting value line 1 column 1" (by simp) rfl (by decide)).1
  · exact (read_error_marker_in_record_not_in_ledger
      [JsonSource.mk "sub-1001_T1w.json" "/deriv/sub-1001/anat/sub-1001_T1w.json"
          (Except.ok [("cjv", JDoc.val (JVal.num 3))]),
        JsonSource.mk "sub-1002_T1w.json" "/deriv/sub-1002/anat/sub-1002_T1w.json"
          (Except.error "JSONDecodeError Expecting value line 1 column 1")]
      (JsonSource.mk "sub-1002_T1w.json" "/deriv/sub-1002/anat/sub-1002_T1w.json"
        (Except.error "JSONDecodeError Expecting value line 1 column 1"))
      "JSONDecodeError Expecting value line 1 column 1" (by simp) rfl (by decide)).2.2.2

theorem outlier_name_inj {a b : String} (h : "outlier__" ++ a = "outlier__" ++ b) :
    a = b := by
  have hd : "outlier__".data ++ a.data = "outlier__".data ++ b.data :=
    congrArg String.data h
  have hab : a.data = b.data := List.append_cancel_left hd
  cases a
  cases b
  exact congrArg String.mk hab

theorem const_qvar_zero (xs : List ℚ) (h : ∀ x ∈ xs, ∀ y ∈ xs, x = y) :
    qvar xs = 0 := by
  rcases xs with _ | ⟨a, rest⟩
  · simp [qvar]
  · have hall : ∀ x ∈ (a :: rest), x = a := fun x hx => h x hx a (by simp)
    have hlen0 : ((a :: rest).length : ℚ) ≠ 0 := by
      simp
      positivity
    have hmean : qmean (a :: rest) = a := by
      unfold qmean
      have hsum : (a :: rest).sum = (a :: rest).length • a :=
        List.sum_eq_card_nsmul _ a hall
      rw [hsum, nsmul_eq_mul, mul_comm, mul_div_assoc, div_self hlen0, mul_one]
    have hzero : ((a :: rest).map (fun x => (x - qmean (a :: rest)) ^ 2)).sum = 0 := by
      apply List.sum_eq_zero
      intro y hy
      rcases List.mem_map.1 hy with ⟨x, hx, rfl⟩
      rw [hmean, hall x hx]
      ring
    unfold qvar
    rw [hzero, zero_div]

theorem add_outlier_flags_mem_inv {df : List QCol} {t : ℚ}
    {pair : String × List Bool} (h : pair ∈ (add_outlier_flags df t).2) :
    ∃ d ∈ df, d.isNum = true ∧ 5 ≤ (nonNA d.vals).length
      ∧ qvar (nonNA d.vals) ≠ 0
      ∧ pair = ("outlier__" ++ d.name,
          d.vals.map (flagCell (qmean (nonNA d.vals)) (qvar (nonNA d.vals)) t)) := by
  unfold add_outlier_flags at h
  simp only at h
  rcases List.mem_filterMap.1 h with ⟨d, hd, hg⟩
  refine ⟨d, hd, ?_⟩
  by_cases h1 : d.isNum = false
  · rw [if_pos h1] at hg
    cases hg
  · rw [if_neg h1] at hg
    by_cases h2 : (nonNA d.vals).length < 5
    · rw [if_pos h2] at hg
      cases hg
    · rw [if_neg h2] at hg
      by_cases h3 : qvar (nonNA d.vals) = 0
      · rw [if_pos h3] at hg
        cases hg
      · rw [if_neg h3] at hg
        refine ⟨?_, Nat.le_of_not_lt h2, h3, (Option.some.inj hg).symm⟩
        cases hbv : d.isNum
        · exact absurd hbv h1
        · rfl

/-- C9: `add_outlier_flags` never alters the underlying columns; a
numeric column with fewer than 5 non-missing cells gets no
`outlier__` column; a constant column (zero variance) gets no
`outlier__` column, hence never flags any row; every remaining numeric
column gets exactly one flag column marking precisely the cells whose
|z-score| meets the threshold — in exact arithmetic, the non-missing
cells `x` with `t ≤ 0` or `(x - mean)^2 ≥ t^2 · var` — while missing
cells are never flagged. -/
theorem add_outlier_flags_spec (df : List QCol) (t : ℚ)
    (hn : (df.map QCol.name).Nodup) :
    (add_outlier_flags df t).1 = df
    ∧ (∀ c ∈ df, c.isNum = true → (nonNA c.vals).length < 5 →
        ("outlier__" ++ c.name) ∉ ((add_outlier_flags df t).2.map Prod.fst))
    ∧ (∀ c ∈ df, c.isNum = true →
        (∀ x ∈ nonNA c.vals, ∀ y ∈ nonNA c.vals, x = y) →
        ("outlier__" ++ c.name) ∉ ((add_outlier_flags df t).2.map Prod.fst))
    ∧ (∀ c ∈ df, c.isNum = true → 5 ≤ (nonNA c.vals).length →
        qvar (nonNA c.vals) ≠ 0 →
        ("outlier__" ++ c.name,
          c.vals.map (flagCell (qmean (nonNA c.vals)) (qvar (nonNA c.vals)) t))
          ∈ (add_outlier_flags df t).2)
    ∧ (∀ μ v x : ℚ, flagCell μ v t (some x) = true ↔ (t ≤ 0 ∨ t ^ 2 * v ≤ (x - μ) ^ 2))
    ∧ (∀ μ v : ℚ, flagCell μ v t none = false) := by
  have hinj : ∀ c ∈ df, ∀ d ∈ df, c.name = d.name → c = d :=
    fun c hc d hd hcd => List.inj_on_of_nodup_map hn hc hd hcd
  refine ⟨rfl, ?_, ?_, ?_, ?_, fun μ v => rfl⟩
  · intro c hc hnum hlen hmem
    rcases List.mem_map.1 hmem with ⟨pair, hpair, hfst⟩
    rcases add_outlier_flags_mem_inv hpair with ⟨d, hd, _, hdlen, _, rfl⟩
    have : d.name = c.name := outlier_name_inj hfst
    rw [hinj d hd c hc this] at hdlen
    omega
  · intro c hc hnum hconst hmem
    rcases List.mem_map.1 hmem with ⟨pair, hpair, hfst⟩
    rcases add_outlier_flags_mem_inv hpair with ⟨d, hd, _, _, hdvar, rfl⟩
    have : d.name = c.name := outlier_name_inj hfst
    rw [hinj d hd c hc this] at hdvar
    exact hdvar (const_qvar_zero _ hconst)
  · intro c hc hnum hlen hvar
    unfold add_outlier_flags
    simp only
    refine List.mem_filterMap.2 ⟨c, hc, ?_⟩
    rw [if_neg (by rw [hnum]; simp), if_neg (by omega), if_neg hvar]
  · intro μ v x
    unfold flagCell
    simp

/-- Witness for C9 on a three-column batch (a spread column, a column
with only two non-missing cells, a constant column) at the default
threshold 3. -/
theorem add_outlier_flags_spec_witness :
    (([QCol.mk "snr" true [some 1, some 2, some 1, some 2, some 100],
        QCol.mk "few" true [some 1, some 2, none, none, none],
        QCol.mk "flat" true [some 3, some 3, some 3, some 3, some 3]]).map QCol.name).Nodup
    ∧ ((add_outlier_flags ([QCol.mk "snr" true [some 1, some 2, some 1, some 2, some 100],
        QCol.mk "few" true [some 1, some 2, none, none, none],
        QCol.mk "flat" true [some 3, some 3, some 3, some 3, some 3]]) 3).1 = ([QCol.mk "snr" true [some 1, some 2, some 1, some 2, some 100],
        QCol.mk "few" true [some 1, some 2, none, none, none],
        QCol.mk "flat" true [some 3, some 3, some 3, some 3, some 3]])
      ∧ (∀ c ∈ ([QCol.mk "snr" true [some 1, some 2, some 1, some 2, some 100],
        QCol.mk "few" true [some 1, some 2, none, none, none],
        QCol.mk "flat" true [some 3, some 3, some 3, some 3, some 3]]), c.isNum = true → (nonNA c.vals).length < 5 →
          ("outlier__" ++ c.name) ∉ ((add_outlier_flags ([QCol.mk "snr" true [some 1, some 2, some 1, some 2, some 100],
        QCol.mk "few" true [some 1, some 2, none, none, none],
        QCol.mk "flat" true [some 3, some 3, some 3, some 3, some 3]]) 3).2.map Prod.fst))
      ∧ (∀ c ∈ ([QCol.mk "snr" true [some 1, some 2, some 1, some 2, some 100],
        QCol.mk "few" true [some 1, some 2, none, none, none],
        QCol.mk "flat" true [some 3, some 3, some 3, some 3, some 3]]), c.isNum = true →
          (∀ x ∈ nonNA c.vals, ∀ y ∈ nonNA c.vals, x = y) →
          ("outlier__" ++ c.name) ∉ ((add_outlier_flags ([QCol.mk "snr" true [some 1, some 2, some 1, some 2, some 100],
        QCol.mk "few" true [some 1, some 2, none, none, none],
        QCol.mk "flat" true [some 3, some 3, some 3, some 3, some 3]]) 3).2.map Prod.fst))
      ∧ (∀ c ∈ ([QCol.mk "snr" true [some 1, some 2, some 1, some 2, some 100],
        QCol.mk "few" true [some 1, some 2, none, none, none],
        QCol.mk "flat" true [some 3, some 3, some 3, some 3, some 3]]), c.isNum = true → 5 ≤ (nonNA c.vals).length →
          qvar (nonNA c.vals) ≠ 0 →
          ("outlier__" ++ c.name,
            c.vals.map (flagCell (qmean (nonNA c.vals)) (qvar (nonNA c.vals)) 3))
            ∈ (add_outlier_flags ([QCol.mk "snr" true [some 1, some 2, some 1, some 2, some 100],
        QCol.mk "few" true [some 1, some 2, none, none, none],
        QCol.mk "flat" true [some 3, some 3, some 3, some 3, some 3]]) 3).2)
      ∧ (∀ μ v x : ℚ, flagCell μ v 3 (some x) = true ↔ ((3:ℚ) ≤ 0 ∨ (3:ℚ) ^ 2 * v ≤ (x - μ) ^ 2))
      ∧ (∀ μ v : ℚ, flagCell μ v 3 none = false)) :=
  ⟨by decide, add_outlier_flags_spec ([QCol.mk "snr" true [some 1, some 2, some 1, some 2, some 100],
        QCol.mk "few" true [some 1, some 2, none, none, none],
        QCol.mk "flat" true [some 3, some 3, some 3, some 3, some 3]]) 3 (by decide)⟩
